import Mathlib

/-!
Verification of the task-list application in `src/app/(tabs)/index.tsx`.

The source file contains two `TaskManager` implementations:
- version 1 (top of the file): react-hook-form + zod validation, persistence
  through `AsyncStorage` under the single key `"tasks"`;
- version 2 (bottom of the file): plain component state, no persistence.

Pure logic is embedded directly; React state (`useState`) becomes an explicit
state record threaded through the operations, and the asynchronous
`AsyncStorage` calls become a store value (`Option String`) plus a boolean
`ok` parameter modelling whether `setItem` resolves or rejects.
-/

namespace TaskApp

/-! Section: Data model

The TypeScript interface `Task` has an optional `description`, but every task
the code constructs carries a string there (`description || ""` in `addTask`,
a string state variable in version 2), so it is embedded as a `String`.
-/

structure Task where
  id : String
  title : String
  description : String
  completed : Bool
deriving Repr, DecidableEq

/-- The filter union type "all" | "complete" | "incomplete". -/
inductive TaskFilter where
  | all
  | complete
  | incomplete
deriving Repr, DecidableEq

/-- JavaScript `s || ""`: the empty string and `undefined` are falsy. -/
def jsOrEmpty : Option String → String
  | some s => if s = "" then "" else s
  | none => ""

/-- The character class stripped by JavaScript `String.prototype.trim`
(space, tab, line terminators, vertical tab, form feed, NBSP, BOM). -/
def jsWhitespace (c : Char) : Bool :=
  c = ' ' || c = '\t' || c = '\n' || c = '\r' ||
  c.toNat = 11 || c.toNat = 12 || c.toNat = 160 || c.toNat = 8232 ||
  c.toNat = 8233 || c.toNat = 65279

/-- JavaScript `s.trim()`: strip leading and trailing whitespace. -/
def jsTrim (s : String) : String :=
  String.mk (((s.toList.dropWhile jsWhitespace).reverse.dropWhile jsWhitespace).reverse)

/-! Section: JSON serialization (`JSON.stringify` on a task array)

`JSON.stringify` on the arrays this program saves produces
`[{"id":…,"title":…,"description":…,"completed":…},…]` with the keys in
construction order and strings escaped (`"`, `\`, and control characters;
`\b \t \n \f \r` short forms, `\u00XX` for the rest below U+0020).
-/

def hexDigitChar (n : Nat) : Char :=
  if n < 10 then Char.ofNat (48 + n) else Char.ofNat (87 + n)

def escChar (c : Char) : List Char :=
  if c = '"' then ['\\', '"']
  else if c = '\\' then ['\\', '\\']
  else if c = Char.ofNat 8 then ['\\', 'b']
  else if c = Char.ofNat 9 then ['\\', 't']
  else if c = Char.ofNat 10 then ['\\', 'n']
  else if c = Char.ofNat 12 then ['\\', 'f']
  else if c = Char.ofNat 13 then ['\\', 'r']
  else if c.toNat < 32 then
    ['\\', 'u', '0', '0', hexDigitChar (c.toNat / 16), hexDigitChar (c.toNat % 16)]
  else [c]

def escString : List Char → List Char
  | [] => []
  | c :: cs => escChar c ++ escString cs

/-- A JSON string literal: opening quote, escaped body, closing quote. -/
def encodeJString (s : String) : List Char :=
  '"' :: (escString s.toList ++ ['"'])

def litTaskOpen : List Char := ['\x7b', '"', 'i', 'd', '"', ':']
def litTitleKey : List Char := [',', '"', 't', 'i', 't', 'l', 'e', '"', ':']
def litDescKey : List Char :=
  [',', '"', 'd', 'e', 's', 'c', 'r', 'i', 'p', 't', 'i', 'o', 'n', '"', ':']
def litCompletedKey : List Char :=
  [',', '"', 'c', 'o', 'm', 'p', 'l', 'e', 't', 'e', 'd', '"', ':']

def encodeTask (t : Task) : List Char :=
  litTaskOpen ++ encodeJString t.id ++
  litTitleKey ++ encodeJString t.title ++
  litDescKey ++ encodeJString t.description ++
  litCompletedKey ++
  (if t.completed then ['t', 'r', 'u', 'e'] else ['f', 'a', 'l', 's', 'e']) ++
  ['\x7d']

def encodeTasksSep : List Task → List Char
  | [] => []
  | t :: ts =>
    match ts with
    | [] => encodeTask t
    | _ :: _ => encodeTask t ++ ',' :: encodeTasksSep ts

/-- Serialization entry point, `JSON.stringify(tasks)`. -/
def encodeTasks (l : List Task) : String :=
  String.mk ('[' :: (encodeTasksSep l ++ [']']))

/-! Section: JSON parsing (`JSON.parse` restricted to the canonical form above)

The program only ever stores the output of `JSON.stringify` on a task array,
so the embedded parser accepts exactly that canonical whitespace-free form
and fails (as `JSON.parse` throws) on everything else.
-/

def hexVal (c : Char) : Option Nat :=
  if 48 ≤ c.toNat ∧ c.toNat ≤ 57 then some (c.toNat - 48)
  else if 97 ≤ c.toNat ∧ c.toNat ≤ 102 then some (c.toNat - 87)
  else if 65 ≤ c.toNat ∧ c.toNat ≤ 70 then some (c.toNat - 55)
  else none

def unescChar (c : Char) : Option Char :=
  if c = '"' then some '"'
  else if c = '\\' then some '\\'
  else if c = '/' then some '/'
  else if c = 'b' then some (Char.ofNat 8)
  else if c = 't' then some (Char.ofNat 9)
  else if c = 'n' then some (Char.ofNat 10)
  else if c = 'f' then some (Char.ofNat 12)
  else if c = 'r' then some (Char.ofNat 13)
  else none

/-- Parse the body of a JSON string (the opening quote already consumed),
returning the decoded characters and the rest of the input. -/
def parseJStrBody : List Char → Option (List Char × List Char)
  | [] => none
  | c :: rest =>
    if c = '"' then some ([], rest)
    else if c = '\\' then
      match rest with
      | [] => none
      | e :: rest2 =>
        if e = 'u' then
          match rest2 with
          | a :: b :: x :: y :: rest3 =>
            match hexVal a, hexVal b, hexVal x, hexVal y with
            | some av, some bv, some xv, some yv =>
              match parseJStrBody rest3 with
              | some (s, r) =>
                some (Char.ofNat (((av * 16 + bv) * 16 + xv) * 16 + yv) :: s, r)
              | none => none
            | _, _, _, _ => none
          | _ => none
        else
          match unescChar e with
          | some d =>
            match parseJStrBody rest2 with
            | some (s, r) => some (d :: s, r)
            | none => none
          | none => none
    else
      match parseJStrBody rest with
      | some (s, r) => some (c :: s, r)
      | none => none

def parseJString (l : List Char) : Option (String × List Char) :=
  match l with
  | [] => none
  | c :: rest =>
    if c = '"' then
      match parseJStrBody rest with
      | some (s, r) => some (String.mk s, r)
      | none => none
    else none

/-- Expect a fixed literal prefix, returning the rest of the input. -/
def expects : List Char → List Char → Option (List Char)
  | [], l => some l
  | _ :: _, [] => none
  | c :: cs, d :: l => if c = d then expects cs l else none

def parseBool : List Char → Option (Bool × List Char)
  | 't' :: 'r' :: 'u' :: 'e' :: r => some (true, r)
  | 'f' :: 'a' :: 'l' :: 's' :: 'e' :: r => some (false, r)
  | _ => none

def parseTask (l : List Char) : Option (Task × List Char) :=
  (expects litTaskOpen l).bind fun r1 =>
  (parseJString r1).bind fun (idStr, r2) =>
  (expects litTitleKey r2).bind fun r3 =>
  (parseJString r3).bind fun (titleStr, r4) =>
  (expects litDescKey r4).bind fun r5 =>
  (parseJString r5).bind fun (descStr, r6) =>
  (expects litCompletedKey r6).bind fun r7 =>
  (parseBool r7).bind fun (b, r8) =>
  (expects ['\x7d'] r8).bind fun r9 =>
  some (⟨idStr, titleStr, descStr, b⟩, r9)

/-- Parse a comma-separated nonempty task sequence followed by `]`.
The fuel bounds the number of tasks; the top level passes the input length,
which always suffices because each task occupies at least one character. -/
def parseTasksAux : Nat → List Char → Option (List Task × List Char)
  | 0, _ => none
  | fuel + 1, l =>
    (parseTask l).bind fun (t, r) =>
    match r with
    | [] => none
    | c :: r2 =>
      if c = ',' then
        (parseTasksAux fuel r2).bind fun (ts, r3) => some (t :: ts, r3)
      else if c = ']' then some ([t], r2)
      else none

/-- Parsing entry point, `JSON.parse` on the canonical task-array form;
`none` models a throw.
The fuel passed to `parseTasksAux` is the remaining input length plus one. -/
def parseTasks (s : String) : Option (List Task) :=
  match s.toList with
  | [] => none
  | c :: rest =>
    if c = '[' then
      match rest with
      | [] => none
      | d :: rest2 =>
        if d = ']' then (if rest2 = [] then some [] else none)
        else
          match parseTasksAux (rest2.length + 2) (d :: rest2) with
          | some (ts, r) => if r = [] then some ts else none
          | none => none
    else none

/-! Section: Version 1 (top `TaskManager`): zod form + AsyncStorage persistence

State: the four `useState` hooks plus the durable store (the value behind
the `"tasks"` key in `AsyncStorage`, `none` when nothing was ever stored).
Form state (`react-hook-form`) is the out-of-scope collaborator.
-/

namespace V1

structure State where
  tasks : List Task
  editTask : Option Task
  filter : TaskFilter
  selectedTask : Option Task
  stored : Option String
deriving Repr, DecidableEq

/-- Form payload validated by `taskSchema`
(`title: z.string().min(1)`, `description: z.string().optional()`). -/
structure TaskFormData where
  title : String
  description : Option String
deriving Repr, DecidableEq

/-- Acceptance of `taskSchema`: zod `min(1)` only requires length ≥ 1. -/
def taskSchemaAccepts (d : TaskFormData) : Bool :=
  1 ≤ d.title.length

/-- Function `getAllTasks`: read the `"tasks"` key; a missing or falsy (empty) value
yields `[]`, a `JSON.parse` throw is caught and yields `[]`. -/
def getAllTasks (stored : Option String) : List Task :=
  match stored with
  | none => []
  | some s =>
    if s = "" then []
    else match parseTasks s with
      | some ts => ts
      | none => []

/-- Function `saveAllTasks`: `setItem` then `setTasks`, both inside the `try`.
When `setItem` rejects (`ok = false`) the `catch` only logs, so neither the
store nor the in-memory list changes. -/
def saveAllTasks (ok : Bool) (updatedTasks : List Task) (st : State) : State :=
  if ok then
    { st with stored := some (encodeTasks updatedTasks), tasks := updatedTasks }
  else st

/-- Function `addTask`: build the task (`id` from `Date.now().toString()`, embedded as
the `now : Nat` parameter) and save `[...tasks, newTask]`. No validation here;
that is left to the zod form layer. -/
def addTask (ok : Bool) (now : Nat) (task : TaskFormData) (st : State) : State :=
  let newTask : Task :=
    { id := toString now
      title := task.title
      description := jsOrEmpty task.description
      completed := false }
  saveAllTasks ok (st.tasks ++ [newTask]) st

/-- Function `editExistingTask`: when an edit target exists, map over the list
replacing the element whose `id` matches `editTask.id` by a spread of that
element with the new `title`/`description`; then clear `editTask`
(`setEditTask(null)` runs after `saveAllTasks` regardless of save success). -/
def editExistingTask (ok : Bool) (taskData : TaskFormData) (st : State) : State :=
  match st.editTask with
  | some et =>
    let updatedTasks := st.tasks.map fun task =>
      if task.id = et.id then
        { task with
            title := taskData.title
            description := jsOrEmpty taskData.description }
      else task
    { saveAllTasks ok updatedTasks st with editTask := none }
  | none => st

/-- Function `deleteTask`: save `tasks.filter((t) => t.id !== task.id)`. -/
def deleteTask (ok : Bool) (task : Task) (st : State) : State :=
  saveAllTasks ok (st.tasks.filter fun t => t.id ≠ task.id) st

/-- Function `toggleCompleteTask`: save the list with `completed` negated on the
elements whose `id` matches. -/
def toggleCompleteTask (ok : Bool) (task : Task) (st : State) : State :=
  saveAllTasks ok
    (st.tasks.map fun t =>
      if t.id = task.id then { t with completed := !t.completed } else t)
    st

/-- Function `openOptions`: select the task and clear the edit target. -/
def openOptions (task : Task) (st : State) : State :=
  { st with selectedTask := some task, editTask := none }

/-- Function `handleOptionsAction`: dispatch on the action string for the selected
task, then clear the selection. -/
def handleOptionsAction (ok : Bool) (action : String) (st : State) : State :=
  let st2 :=
    match st.selectedTask with
    | some sel =>
      if action = "complete" || action = "incomplete" then
        toggleCompleteTask ok sel st
      else if action = "edit" then
        { st with editTask := some sel }
      else if action = "delete" then
        deleteTask ok sel st
      else st
    | none => st
  { st2 with selectedTask := none }

/-- A sequence of `addTask` calls (each with its own `Date.now()` reading),
performed left to right, all saves succeeding. -/
def addTaskSeq : List (Nat × TaskFormData) → State → State
  | [], st => st
  | (now, d) :: rest, st => addTaskSeq rest (addTask true now d st)

/-- Function `setFilter` from the filter buttons. -/
def setFilter (value : TaskFilter) (st : State) : State :=
  { st with filter := value }

/-- Function `filteredTasks`: the derived view over the current filter. -/
def filteredTasks (filter : TaskFilter) (tasks : List Task) : List Task :=
  tasks.filter fun task =>
    match filter with
    | TaskFilter.complete => task.completed
    | TaskFilter.incomplete => !task.completed
    | TaskFilter.all => true

end V1

/-! Section: Version 2 (bottom `TaskManager`): plain state, no persistence -/

namespace V2

structure State where
  tasks : List Task
  newTitle : String
  newDescription : String
  editTask : Option Task
  filter : TaskFilter
  selectedTask : Option Task
deriving Repr, DecidableEq

/-- Function `addTask`: rejects a whitespace-only title (`newTitle.trim() === ""`),
otherwise appends a task whose `id` comes from `Math.random().toString()`,
embedded as the `rid` parameter. -/
def addTask (rid : String) (st : State) : State :=
  if jsTrim st.newTitle = "" then st
  else
    let newTask : Task :=
      { id := rid
        title := st.newTitle
        description := if st.newDescription = "" then "" else st.newDescription
        completed := false }
    { st with
        tasks := st.tasks ++ [newTask]
        newTitle := ""
        newDescription := "" }

/-- Function `editExistingTask(task)`: replaces the element whose `id` matches
`task.id` by a spread of `task` itself — the edit-target snapshot, not the
current list element — with the new title and description. -/
def editExistingTask (task : Task) (st : State) : State :=
  { st with
      tasks := st.tasks.map fun t =>
        if t.id = task.id then
          { task with title := st.newTitle, description := st.newDescription }
        else t
      editTask := none
      newTitle := ""
      newDescription := "" }

/-- Function `deleteTask(taskId)`: filter out the matching id. -/
def deleteTask (taskId : String) (st : State) : State :=
  { st with tasks := st.tasks.filter fun task => task.id ≠ taskId }

/-- Function `toggleCompleteTask(taskId)`: negate `completed` on the matching id. -/
def toggleCompleteTask (taskId : String) (st : State) : State :=
  { st with
      tasks := st.tasks.map fun task =>
        if task.id = taskId then { task with completed := !task.completed }
        else task }

/-- Function `filteredTasks`: same derived view as version 1. -/
def filteredTasks (filter : TaskFilter) (tasks : List Task) : List Task :=
  tasks.filter fun task =>
    match filter with
    | TaskFilter.complete => task.completed
    | TaskFilter.incomplete => !task.completed
    | TaskFilter.all => true

/-- Function `openOptions`: version 2 only sets the selection (no edit-target clear). -/
def openOptions (task : Task) (st : State) : State :=
  { st with selectedTask := some task }

/-- Function `handleOptionsAction`: dispatch on the action string, then clear the
selection. -/
def handleOptionsAction (action : String) (st : State) : State :=
  let st2 :=
    match st.selectedTask with
    | some sel =>
      if action = "complete" then toggleCompleteTask sel.id st
      else if action = "incomplete" then toggleCompleteTask sel.id st
      else if action = "edit" then
        { st with
            editTask := some sel
            newTitle := sel.title
            newDescription := sel.description }
      else if action = "delete" then deleteTask sel.id st
      else st
    | none => st
  { st2 with selectedTask := none }

end V2

/-! Section: Serializer/parser inverse lemmas -/

theorem char_ofNat_toNat (c : Char) : Char.ofNat c.toNat = c := by
  apply Char.eq_of_val_eq
  have hv : c.toNat.isValidChar := c.valid
  simp only [Char.ofNat, hv, dif_pos]
  rfl

theorem hexVal_hexDigitChar : ∀ n : Fin 16,
    hexVal (hexDigitChar n.val) = some n.val := by decide

theorem hexVal_zero : hexVal '0' = some 0 := by decide

theorem parseJStrBody_escString (s : List Char) (rest : List Char) :
    parseJStrBody (escString s ++ '"' :: rest) = some (s, rest) := by
  induction s with
  | nil =>
    rw [show escString [] ++ '"' :: rest = '"' :: rest from rfl]
    rw [parseJStrBody.eq_def]
    simp
  | cons c cs ih =>
    rw [escString, List.append_assoc]
    by_cases h1 : c = '"'
    · subst h1
      rw [show escChar '"' = ['\\', '"'] from by decide]
      rw [List.cons_append, List.cons_append, List.nil_append]
      rw [parseJStrBody.eq_def]
      simp [unescChar, ih]
    by_cases h2 : c = '\\'
    · subst h2
      rw [show escChar '\\' = ['\\', '\\'] from by decide]
      rw [List.cons_append, List.cons_append, List.nil_append]
      rw [parseJStrBody.eq_def]
      simp [unescChar, ih]
    by_cases h3 : c = Char.ofNat 8
    · subst h3
      rw [show escChar (Char.ofNat 8) = ['\\', 'b'] from by decide]
      rw [List.cons_append, List.cons_append, List.nil_append]
      rw [parseJStrBody.eq_def]
      simp [unescChar, ih]
    by_cases h4 : c = Char.ofNat 9
    · subst h4
      rw [show escChar (Char.ofNat 9) = ['\\', 't'] from by decide]
      rw [List.cons_append, List.cons_append, List.nil_append]
      rw [parseJStrBody.eq_def]
      simp [unescChar, ih]
    by_cases h5 : c = Char.ofNat 10
    · subst h5
      rw [show escChar (Char.ofNat 10) = ['\\', 'n'] from by decide]
      rw [List.cons_append, List.cons_append, List.nil_append]
      rw [parseJStrBody.eq_def]
      simp [unescChar, ih]
    by_cases h6 : c = Char.ofNat 12
    · subst h6
      rw [show escChar (Char.ofNat 12) = ['\\', 'f'] from by decide]
      rw [List.cons_append, List.cons_append, List.nil_append]
      rw [parseJStrBody.eq_def]
      simp [unescChar, ih]
    by_cases h7 : c = Char.ofNat 13
    · subst h7
      rw [show escChar (Char.ofNat 13) = ['\\', 'r'] from by decide]
      rw [List.cons_append, List.cons_append, List.nil_append]
      rw [parseJStrBody.eq_def]
      simp [unescChar, ih]
    by_cases h8 : c.toNat < 32
    · have hdiv : c.toNat / 16 < 16 := by omega
      have hmod : c.toNat % 16 < 16 := Nat.mod_lt _ (by omega)
      have hx := hexVal_hexDigitChar ⟨c.toNat / 16, hdiv⟩
      have hy := hexVal_hexDigitChar ⟨c.toNat % 16, hmod⟩
      have hc : Char.ofNat (((0 * 16 + 0) * 16 + c.toNat / 16) * 16 + c.toNat % 16) = c := by
        rw [show ((0 * 16 + 0) * 16 + c.toNat / 16) * 16 + c.toNat % 16 = c.toNat by omega]
        exact char_ofNat_toNat c
      have hc2 : Char.ofNat (c.toNat / 16 * 16 + c.toNat % 16) = c := by
        rw [show c.toNat / 16 * 16 + c.toNat % 16 = c.toNat by omega]
        exact char_ofNat_toNat c
      have hesc : escChar c =
          ['\\', 'u', '0', '0', hexDigitChar (c.toNat / 16), hexDigitChar (c.toNat % 16)] := by
        simp [escChar, h1, h2, h3, h4, h5, h6, h7, h8]
      rw [hesc]
      simp only [List.cons_append, List.nil_append]
      rw [parseJStrBody.eq_def]
      simp at hx hy
      simp [hexVal_zero, hx, hy, ih, hc, hc2]
    · have hesc : escChar c = [c] := by
        simp [escChar, h1, h2, h3, h4, h5, h6, h7, h8]
      rw [hesc]
      simp only [List.cons_append, List.nil_append]
      rw [parseJStrBody.eq_def]
      simp [h1, h2, ih]

theorem parseJString_encodeJString (s : String) (rest : List Char) :
    parseJString (encodeJString s ++ rest) = some (s, rest) := by
  rw [encodeJString, List.cons_append, List.append_assoc, List.cons_append,
    List.nil_append]
  rw [parseJString]
  simp [parseJStrBody_escString]

theorem expects_append (pre l : List Char) : expects pre (pre ++ l) = some l := by
  induction pre with
  | nil => rfl
  | cons c cs ih => simp [expects, ih]

theorem parseBool_encode (b : Bool) (rest : List Char) :
    parseBool ((if b then ['t', 'r', 'u', 'e'] else ['f', 'a', 'l', 's', 'e']) ++ rest) =
      some (b, rest) := by
  cases b <;> rfl

theorem parseTask_encodeTask (t : Task) (rest : List Char) :
    parseTask (encodeTask t ++ rest) = some (t, rest) := by
  obtain ⟨i, ti, d, co⟩ := t
  rw [parseTask, encodeTask]
  simp only [List.append_assoc]
  simp [expects_append, parseJString_encodeJString, parseBool_encode, expects]

theorem encodeTask_length_pos (t : Task) : 1 ≤ (encodeTask t).length := by
  rw [encodeTask, litTaskOpen]
  simp

theorem length_le_encodeTasksSep (l : List Task) :
    l.length ≤ (encodeTasksSep l).length := by
  induction l with
  | nil => simp [encodeTasksSep]
  | cons t ts ih =>
    cases ts with
    | nil =>
      rw [encodeTasksSep]
      simpa using encodeTask_length_pos t
    | cons t2 ts2 =>
      rw [encodeTasksSep]
      have := encodeTask_length_pos t
      simp only [List.length_cons, List.length_append] at ih ⊢
      omega

theorem parseTasksAux_encode :
    ∀ (l : List Task) (fuel : Nat) (rest : List Char), l ≠ [] → l.length ≤ fuel →
    parseTasksAux fuel (encodeTasksSep l ++ ']' :: rest) = some (l, rest) := by
  intro l
  induction l with
  | nil => intro fuel rest h _; exact absurd rfl h
  | cons t ts ih =>
    intro fuel rest _ hlen
    obtain ⟨f, rfl⟩ : ∃ f, fuel = f + 1 := ⟨fuel - 1, by simp at hlen; omega⟩
    cases ts with
    | nil =>
      rw [encodeTasksSep, parseTasksAux]
      simp [parseTask_encodeTask]
    | cons t2 ts2 =>
      have h2 := ih f rest (by simp) (by simp at hlen ⊢; omega)
      rw [encodeTasksSep, parseTasksAux]
      rw [List.append_assoc, List.cons_append]
      simp [parseTask_encodeTask, h2]

theorem encodeTasksSep_cons (t : Task) (ts : List Task) :
    ∃ tail, encodeTasksSep (t :: ts) = '\x7b' :: tail := by
  cases ts with
  | nil =>
    rw [encodeTasksSep, encodeTask, litTaskOpen]
    exact ⟨_, rfl⟩
  | cons t2 ts2 =>
    rw [encodeTasksSep, encodeTask, litTaskOpen]
    exact ⟨_, rfl⟩

/-- The serialize-then-parse round trip is the identity on task lists. -/
theorem parseTasks_encodeTasks (l : List Task) :
    parseTasks (encodeTasks l) = some l := by
  cases l with
  | nil =>
    rw [parseTasks]
    rfl
  | cons t ts =>
    obtain ⟨tail, htail⟩ := encodeTasksSep_cons t ts
    rw [parseTasks]
    rw [show (encodeTasks (t :: ts)).toList
        = '[' :: (encodeTasksSep (t :: ts) ++ [']']) from rfl]
    have hlen2 : (t :: ts).length ≤ (tail ++ [']']).length + 2 := by
      have := length_le_encodeTasksSep (t :: ts)
      rw [htail] at this
      simp only [List.length_cons] at this
      simp only [List.length_append, List.length_cons, List.length_nil]
      omega
    have hlen3 : (t :: ts).length ≤ tail.length + 1 + 2 := by
      simp only [List.length_append, List.length_cons, List.length_nil] at hlen2 ⊢
      omega
    have haux := parseTasksAux_encode (t :: ts) (tail.length + 1 + 2) []
      (by simp) hlen3
    rw [htail] at haux
    simp only [List.append_assoc, List.cons_append, List.nil_append] at haux
    rw [htail]
    simp only [List.cons_append]
    simp [haux]

/-! Section: Helper list lemmas -/

theorem filter_completed_length (l : List Task) :
    (l.filter fun t => t.completed).length
      + (l.filter fun t => !t.completed).length = l.length := by
  induction l with
  | nil => rfl
  | cons t ts ih => cases h : t.completed <;> simp [List.filter_cons, h] <;> omega

theorem map_if_id_invol (i : String) (l : List Task) :
    ((l.map fun t => if t.id = i then { t with completed := !t.completed } else t).map
      fun t => if t.id = i then { t with completed := !t.completed } else t) = l := by
  induction l with
  | nil => rfl
  | cons t ts ih =>
    simp only [List.map_cons, ih, List.cons.injEq, and_true]
    by_cases h : t.id = i
    · obtain ⟨a, b, c, d⟩ := t
      simp_all
    · simp [h]

theorem map_if_id_no_match (i : String) (g : Task → Task) (l : List Task)
    (h : i ∉ l.map Task.id) :
    (l.map fun t => if t.id = i then g t else t) = l := by
  induction l with
  | nil => rfl
  | cons t ts ih =>
    simp only [List.map_cons, List.mem_cons, not_or] at h
    simp only [List.map_cons, List.cons.injEq]
    constructor
    · rw [if_neg (fun hc => h.1 hc.symm)]
    · exact ih h.2

theorem encodeTasks_ne_empty (l : List Task) : encodeTasks l ≠ "" := by
  intro h
  have := congrArg String.data h
  simp [encodeTasks] at this

/-! Section: Claim theorems -/

/-- Claim C6: for every task list `L`, `save(L)` followed by `load()` with no
intervening save returns a list equal to `L` — the same tasks in the same
order with the same `id`, `title`, `description` and `completed` values; the
JSON serialize-then-parse round trip is the identity on task lists. -/
theorem c6_save_load_roundtrip (l : List Task) (st : V1.State) :
    V1.getAllTasks (V1.saveAllTasks true l st).stored = l := by
  have hst : (V1.saveAllTasks true l st).stored = some (encodeTasks l) := rfl
  rw [hst, V1.getAllTasks]
  rw [if_neg (encodeTasks_ne_empty l), parseTasks_encodeTasks]

/-- Claim C8: `load()` never raises (it is a total function here): with
nothing ever saved or the payload absent it returns `[]`, with an unparseable
payload it returns `[]`, and otherwise it returns the previously saved list. -/
theorem c8_load_total :
    V1.getAllTasks none = [] ∧
    V1.getAllTasks (some "") = [] ∧
    (∀ s : String, parseTasks s = none → V1.getAllTasks (some s) = []) ∧
    (∀ (l : List Task) (st : V1.State),
      V1.getAllTasks (V1.saveAllTasks true l st).stored = l) := by
  refine ⟨rfl, rfl, ?_, ?_⟩
  · intro s hs
    rw [V1.getAllTasks]
    by_cases h : s = ""
    · rw [if_pos h]
    · rw [if_neg h, hs]
  · intro l st
    have hst : (V1.saveAllTasks true l st).stored = some (encodeTasks l) := rfl
    rw [hst, V1.getAllTasks]
    rw [if_neg (encodeTasks_ne_empty l), parseTasks_encodeTasks]

/-- Witness for C8 at concrete inputs: the payload `"x"` is unparseable and
loads as `[]`. -/
theorem c8_load_total_witness :
    V1.getAllTasks (some "x") = [] :=
  c8_load_total.2.2.1 "x" (by decide)

/-- Claim C7: `setFilter` changes only the filter component of the view
state (tasks, edit target, selection and the durable store are untouched),
and the visible-tasks projection partitions the list: `all` passes the whole
list, and its length is the sum of the lengths under `complete` and
`incomplete`, the two being disjoint and together exhaustive (membership in
`complete` is exactly membership in the list with `completed = true`, and
dually for `incomplete`). -/
theorem c7_setFilter_partition (v : TaskFilter) (st : V1.State) (l : List Task) :
    (V1.setFilter v st).tasks = st.tasks ∧
    (V1.setFilter v st).editTask = st.editTask ∧
    (V1.setFilter v st).selectedTask = st.selectedTask ∧
    (V1.setFilter v st).stored = st.stored ∧
    (V1.setFilter v st).filter = v ∧
    V1.filteredTasks TaskFilter.all l = l ∧
    (V1.filteredTasks TaskFilter.all l).length =
      (V1.filteredTasks TaskFilter.complete l).length
        + (V1.filteredTasks TaskFilter.incomplete l).length ∧
    (∀ t : Task, t ∈ V1.filteredTasks TaskFilter.complete l
        ↔ t ∈ l ∧ t.completed = true) ∧
    (∀ t : Task, t ∈ V1.filteredTasks TaskFilter.incomplete l
        ↔ t ∈ l ∧ t.completed = false) ∧
    V2.filteredTasks TaskFilter.all l = l ∧
    (V2.filteredTasks TaskFilter.all l).length =
      (V2.filteredTasks TaskFilter.complete l).length
        + (V2.filteredTasks TaskFilter.incomplete l).length := by
  refine ⟨rfl, rfl, rfl, rfl, rfl, ?_, ?_, ?_, ?_, ?_, ?_⟩
  · simp [V1.filteredTasks]
  · simp only [V1.filteredTasks]
    rw [show List.filter (fun task => true) l = l from by simp]
    exact (filter_completed_length l).symm
  · intro t
    simp [V1.filteredTasks, List.mem_filter]
  · intro t
    simp [V1.filteredTasks, List.mem_filter]
  · simp [V2.filteredTasks]
  · simp only [V2.filteredTasks]
    rw [show List.filter (fun task => true) l = l from by simp]
    exact (filter_completed_length l).symm

/-- Claim C9: toggling flips the `completed` flag of the id-matching task
only — its `id`, `title`, `description` and every other task are unchanged —
and toggling the same id twice returns the in-memory list to its original
value (involution), in both versions. -/
theorem c9_toggle_involution (task : Task) (st : V1.State)
    (tid : String) (st2 : V2.State) :
    (V1.toggleCompleteTask true task (V1.toggleCompleteTask true task st)).tasks
      = st.tasks ∧
    (V2.toggleCompleteTask tid (V2.toggleCompleteTask tid st2)).tasks
      = st2.tasks ∧
    (V1.toggleCompleteTask true task st).tasks.length = st.tasks.length ∧
    (V1.toggleCompleteTask true task st).tasks.map Task.id
      = st.tasks.map Task.id ∧
    (V1.toggleCompleteTask true task st).tasks.map Task.title
      = st.tasks.map Task.title ∧
    (V1.toggleCompleteTask true task st).tasks.map Task.description
      = st.tasks.map Task.description ∧
    (∀ i : Nat, st.tasks[i]?.map Task.id ≠ some task.id →
      (V1.toggleCompleteTask true task st).tasks[i]? = st.tasks[i]?) ∧
    (∀ i : Nat, st.tasks[i]?.map Task.id = some task.id →
      (V1.toggleCompleteTask true task st).tasks[i]?.map Task.completed
        = st.tasks[i]?.map fun u => !u.completed) := by
  have hv1 : ∀ (tk : Task) (s : V1.State), (V1.toggleCompleteTask true tk s).tasks
      = s.tasks.map fun t => if t.id = tk.id then { t with completed := !t.completed } else t :=
    fun _ _ => rfl
  have hv2 : ∀ (i : String) (s : V2.State), (V2.toggleCompleteTask i s).tasks
      = s.tasks.map fun t => if t.id = i then { t with completed := !t.completed } else t :=
    fun _ _ => rfl
  refine ⟨?_, ?_, ?_, ?_, ?_, ?_, ?_, ?_⟩
  · rw [hv1, hv1, map_if_id_invol]
  · rw [hv2, hv2, map_if_id_invol]
  · rw [hv1]; simp
  · rw [hv1]
    induction st.tasks with
    | nil => rfl
    | cons t ts ih =>
      simp only [List.map_cons, ih, List.cons.injEq, and_true]
      by_cases h : t.id = task.id <;> simp [h]
  · rw [hv1]
    induction st.tasks with
    | nil => rfl
    | cons t ts ih =>
      simp only [List.map_cons, ih, List.cons.injEq, and_true]
      by_cases h : t.id = task.id <;> simp [h]
  · rw [hv1]
    induction st.tasks with
    | nil => rfl
    | cons t ts ih =>
      simp only [List.map_cons, ih, List.cons.injEq, and_true]
      by_cases h : t.id = task.id <;> simp [h]
  · intro i hi
    rw [hv1, List.getElem?_map]
    cases hx : st.tasks[i]? with
    | none => rfl
    | some u =>
      rw [hx] at hi
      have hne : u.id ≠ task.id := by
        intro hc
        exact hi (by simp [hc])
      simp [hne]
  · intro i hi
    rw [hv1, List.getElem?_map]
    cases hx : st.tasks[i]? with
    | none => rw [hx] at hi; simp at hi
    | some u =>
      rw [hx] at hi
      have heq : u.id = task.id := by simpa using hi
      simp [heq]

/-- Witness for C9 at a concrete input: toggling id "1" on a two-task list
flips the matching position and leaves the other untouched. -/
theorem c9_toggle_involution_witness :
    (V1.toggleCompleteTask true ⟨"1", "a", "", false⟩
      ⟨[⟨"1", "a", "", false⟩, ⟨"2", "b", "", true⟩], none, TaskFilter.all,
        none, none⟩).tasks[1]?
      = some ⟨"2", "b", "", true⟩ :=
  (c9_toggle_involution ⟨"1", "a", "", false⟩
    ⟨[⟨"1", "a", "", false⟩, ⟨"2", "b", "", true⟩], none, TaskFilter.all,
      none, none⟩ "1"
    ⟨[], "", "", none, TaskFilter.all, none⟩).2.2.2.2.2.2.1 1 (by decide)

/-- Claim C10: committing an edit whose target id is absent from the current
list is a no-op on the list (not an error): the replace matches by `id` and,
finding no match, leaves every element unchanged — in both versions. -/
theorem c10_edit_deleted_noop (d : V1.TaskFormData) (st : V1.State) (et : Task)
    (h1 : st.editTask = some et) (h2 : et.id ∉ st.tasks.map Task.id)
    (tk : Task) (st2 : V2.State) (h3 : tk.id ∉ st2.tasks.map Task.id) :
    (V1.editExistingTask true d st).tasks = st.tasks ∧
    (V2.editExistingTask tk st2).tasks = st2.tasks := by
  constructor
  · rw [V1.editExistingTask, h1]
    show st.tasks.map _ = st.tasks
    exact map_if_id_no_match et.id _ st.tasks h2
  · show st2.tasks.map _ = st2.tasks
    exact map_if_id_no_match tk.id _ st2.tasks h3

/-- Witness for C10 at a concrete input: editing target id "2" against a
list holding only id "1" leaves the list unchanged in both versions. -/
theorem c10_edit_deleted_noop_witness :
    (V1.editExistingTask true ⟨"b", some "y"⟩
      ⟨[⟨"1", "a", "", false⟩], some ⟨"2", "z", "", false⟩, TaskFilter.all,
        none, none⟩).tasks = [⟨"1", "a", "", false⟩] :=
  (c10_edit_deleted_noop ⟨"b", some "y"⟩
    ⟨[⟨"1", "a", "", false⟩], some ⟨"2", "z", "", false⟩, TaskFilter.all,
      none, none⟩ ⟨"2", "z", "", false⟩ rfl (by decide)
    ⟨"2", "z", "", false⟩ ⟨[⟨"1", "a", "", false⟩], "b", "y", none,
      TaskFilter.all, none⟩ (by decide)).1

theorem string_eq_empty_iff (s : String) : s = "" ↔ s.data = [] := by
  cases s with
  | mk data =>
    constructor
    · intro h
      exact congrArg String.data h
    · intro h
      subst h
      rfl

theorem addTaskSeq_tasks (calls : List (Nat × V1.TaskFormData)) (st : V1.State) :
    (V1.addTaskSeq calls st).tasks = st.tasks ++ calls.map fun c =>
      (⟨toString c.1, c.2.title, jsOrEmpty c.2.description, false⟩ : Task) := by
  induction calls generalizing st with
  | nil => simp [V1.addTaskSeq]
  | cons c rest ih =>
    obtain ⟨now, d⟩ := c
    rw [V1.addTaskSeq, ih]
    simp [V1.addTask, V1.saveAllTasks]

/-- Claim C1: FAILS on the code at a concrete input. Two `addTask` calls
with distinct non-empty titles but the same `Date.now()` reading (5) produce
two tasks both with id "5": the length grows by the number of calls, but the
ids are not pairwise distinct. -/
theorem c1_counterexample :
    (V1.addTask true 5 ⟨"b", none⟩ (V1.addTask true 5 ⟨"a", none⟩
        ⟨[], none, TaskFilter.all, none, none⟩)).tasks.length = 2 ∧
    ("a" : String) ≠ "b" ∧ ("a" : String) ≠ "" ∧ ("b" : String) ≠ "" ∧
    ¬ ((V1.addTask true 5 ⟨"b", none⟩ (V1.addTask true 5 ⟨"a", none⟩
        ⟨[], none, TaskFilter.all, none, none⟩)).tasks.map Task.id).Nodup := by
  refine ⟨rfl, by decide, by decide, by decide, by decide⟩

/-- Claim C1 (amended): for every sequence of `addTask` calls with distinct
non-empty titles, the list length grows by the number of calls; the ids of
the resulting list are pairwise distinct provided the `Date.now()` readings
of the calls are pairwise distinct and fresh with respect to the starting
pairwise distinct ids of the starting list — the timestamp-only id scheme guarantees
nothing more. -/
theorem c1_amended_addTask_ids (calls : List (Nat × V1.TaskFormData))
    (st : V1.State)
    (htitles : (calls.map fun c => c.2.title).Nodup)
    (hne : ∀ c ∈ calls, c.2.title ≠ "")
    (hfresh : (st.tasks.map Task.id ++ calls.map fun c => toString c.1).Nodup) :
    (V1.addTaskSeq calls st).tasks.length = st.tasks.length + calls.length ∧
    ((V1.addTaskSeq calls st).tasks.map Task.id).Nodup := by
  rw [addTaskSeq_tasks]
  constructor
  · simp
  · rw [List.map_append, List.map_map]
    have hcomp : (Task.id ∘ fun c : Nat × V1.TaskFormData =>
        (⟨toString c.1, c.2.title, jsOrEmpty c.2.description, false⟩ : Task))
        = fun c : Nat × V1.TaskFormData => toString c.1 := rfl
    rw [hcomp]
    exact hfresh

/-- Witness for the amended C1 at a concrete input: two calls with distinct
titles and distinct timestamps, starting from the empty list. -/
theorem c1_amended_addTask_ids_witness :
    (V1.addTaskSeq [(1, ⟨"a", none⟩), (2, ⟨"b", none⟩)]
      ⟨[], none, TaskFilter.all, none, none⟩).tasks.length
      = ([] : List Task).length + 2 ∧
    ((V1.addTaskSeq [(1, ⟨"a", none⟩), (2, ⟨"b", none⟩)]
      ⟨[], none, TaskFilter.all, none, none⟩).tasks.map Task.id).Nodup :=
  c1_amended_addTask_ids [(1, ⟨"a", none⟩), (2, ⟨"b", none⟩)]
    ⟨[], none, TaskFilter.all, none, none⟩
    (by decide) (by decide) (by decide)

/-- Claim C2: FAILS on the code at a concrete input. In `saveAllTasks` the
`setTasks(updatedTasks)` call sits after the `await AsyncStorage.setItem`
inside the `try`, so when the save rejects the in-memory list does NOT
already hold the new list: it is left at its previous value. -/
theorem c2_counterexample :
    (V1.saveAllTasks false [⟨"1", "a", "", false⟩]
      ⟨[], none, TaskFilter.all, none, none⟩).tasks = [] ∧
    (V1.saveAllTasks false [⟨"1", "a", "", false⟩]
      ⟨[], none, TaskFilter.all, none, none⟩).tasks ≠ [⟨"1", "a", "", false⟩] := by
  refine ⟨rfl, by decide⟩

/-- Claim C2 (amended): when the save of the adapter fails, the in-memory state is
rolled over unchanged — `setTasks` runs only after a successful `setItem` —
so every mutating operation leaves both the task list and the durable store
exactly as they were, and no divergence between displayed and durable state
arises from a failed save. -/
theorem c2_amended_save_failure (updated : List Task) (st : V1.State)
    (now : Nat) (d : V1.TaskFormData) (t : Task) :
    V1.saveAllTasks false updated st = st ∧
    (V1.addTask false now d st).tasks = st.tasks ∧
    (V1.editExistingTask false d st).tasks = st.tasks ∧
    (V1.deleteTask false t st).tasks = st.tasks ∧
    (V1.toggleCompleteTask false t st).tasks = st.tasks ∧
    (V1.addTask false now d st).stored = st.stored ∧
    (V1.editExistingTask false d st).stored = st.stored ∧
    (V1.deleteTask false t st).stored = st.stored ∧
    (V1.toggleCompleteTask false t st).stored = st.stored := by
  refine ⟨rfl, rfl, ?_, rfl, rfl, rfl, ?_, rfl, rfl⟩
  · rw [V1.editExistingTask]
    cases st.editTask <;> rfl
  · rw [V1.editExistingTask]
    cases st.editTask <;> rfl

/-- Claim C3: FAILS on the code at a concrete input. The whitespace-only
title `" "` passes the zod schema (`min(1)` counts characters, not trimmed
characters), and version 1's `addTask` itself re-validates nothing: the task
is appended, so the operation is not a no-op. -/
theorem c3_counterexample :
    V1.taskSchemaAccepts ⟨" ", none⟩ = true ∧
    jsTrim " " = "" ∧
    (V1.addTask true 1 ⟨" ", none⟩
      ⟨[], none, TaskFilter.all, none, none⟩).tasks
      = [⟨"1", " ", "", false⟩] := by
  refine ⟨by decide, by decide, rfl⟩

/-- Claim C3 (amended): only version 2's `addTask` re-validates the title
(a title that trims to empty is a silent no-op on the whole state); version
1's `addTask` performs no validation of its own — it appends whatever the
form layer passes — and the zod schema of the form layer rejects exactly the
empty string, so whitespace-only titles get through. -/
theorem c3_amended_validation (rid : String) (st2 : V2.State)
    (h : jsTrim st2.newTitle = "")
    (now : Nat) (d : V1.TaskFormData) (st : V1.State) :
    V2.addTask rid st2 = st2 ∧
    (V1.addTask true now d st).tasks
      = st.tasks ++ [⟨toString now, d.title, jsOrEmpty d.description, false⟩] ∧
    (V1.taskSchemaAccepts d = false ↔ d.title = "") := by
  refine ⟨?_, rfl, ?_⟩
  · rw [V2.addTask, if_pos h]
  · constructor
    · intro hf
      rw [V1.taskSchemaAccepts] at hf
      have h1 : ¬(1 ≤ d.title.length) := of_decide_eq_false hf
      have h2 : d.title.length = d.title.data.length := rfl
      have hlen : d.title.data.length = 0 := by omega
      rw [string_eq_empty_iff]
      exact List.length_eq_zero.mp hlen
    · intro he
      rw [V1.taskSchemaAccepts, he]
      rfl

/-- Witness for the amended C3 at a concrete input: a state whose pending
title is `" "` is left untouched by version 2's `addTask`. -/
theorem c3_amended_validation_witness :
    V2.addTask "0.5" ⟨[], " ", "", none, TaskFilter.all, none⟩
      = ⟨[], " ", "", none, TaskFilter.all, none⟩ ∧
    (V1.addTask true 1 ⟨" ", none⟩
      ⟨[], none, TaskFilter.all, none, none⟩).tasks
      = [] ++ [⟨toString 1, " ", jsOrEmpty none, false⟩] ∧
    (V1.taskSchemaAccepts ⟨" ", none⟩ = false ↔ (" " : String) = "") :=
  c3_amended_validation "0.5" ⟨[], " ", "", none, TaskFilter.all, none⟩
    (by decide) 1 ⟨" ", none⟩ ⟨[], none, TaskFilter.all, none, none⟩

/-- Claim C4: FAILS on the code at a concrete input. In version 2,
`editExistingTask` spreads the edit-target snapshot (`{ ...task, ... }`, not
the current list element), so when the task was toggled after the edit began
the commit reverts its `completed` flag: here the list value `true` becomes
`false`, the value held by the snapshot. -/
theorem c4_counterexample :
    (V2.editExistingTask ⟨"1", "a", "x", false⟩
      ⟨[⟨"1", "a", "x", true⟩], "b", "y", some ⟨"1", "a", "x", false⟩,
        TaskFilter.all, none⟩).tasks.map Task.completed = [false] ∧
    ([(⟨"1", "a", "x", true⟩ : Task)].map Task.completed = [true]) := by
  refine ⟨rfl, rfl⟩

/-- Claim C4 (amended): version 1's `commitEdit` satisfies the claim in
full — it replaces only the id-matching task in place, updating `title` and
`description` while preserving `id`, the `completed` value currently in the
list, every other task, and the length. Version 2's `commitEdit` also
preserves length, ids, positions and non-matching tasks, but it writes the
matching position from the edit-target snapshot, so its `completed` (and
`title`/`description` inputs) come from the snapshot: a toggle performed
after the edit began is reverted. -/
theorem c4_commitEdit_frame (d : V1.TaskFormData) (st : V1.State) (et : Task)
    (h1 : st.editTask = some et) (tk : Task) (st2 : V2.State) :
    (V1.editExistingTask true d st).tasks.length = st.tasks.length ∧
    (V1.editExistingTask true d st).tasks.map Task.id
      = st.tasks.map Task.id ∧
    (V1.editExistingTask true d st).tasks.map Task.completed
      = st.tasks.map Task.completed ∧
    (∀ i : Nat, st.tasks[i]?.map Task.id ≠ some et.id →
      (V1.editExistingTask true d st).tasks[i]? = st.tasks[i]?) ∧
    (∀ i : Nat, st.tasks[i]?.map Task.id = some et.id →
      (V1.editExistingTask true d st).tasks[i]?
        = st.tasks[i]?.map fun u =>
            { u with title := d.title, description := jsOrEmpty d.description }) ∧
    (V2.editExistingTask tk st2).tasks.length = st2.tasks.length ∧
    (V2.editExistingTask tk st2).tasks.map Task.id
      = st2.tasks.map Task.id ∧
    (∀ i : Nat, st2.tasks[i]?.map Task.id ≠ some tk.id →
      (V2.editExistingTask tk st2).tasks[i]? = st2.tasks[i]?) ∧
    (∀ i : Nat, st2.tasks[i]?.map Task.id = some tk.id →
      (V2.editExistingTask tk st2).tasks[i]?
        = some { tk with title := st2.newTitle, description := st2.newDescription }) := by
  have hr1 : (V1.editExistingTask true d st).tasks
      = st.tasks.map fun task =>
        if task.id = et.id then
          { task with title := d.title, description := jsOrEmpty d.description }
        else task := by
    rw [V1.editExistingTask, h1]
    rfl
  have hr2 : (V2.editExistingTask tk st2).tasks
      = st2.tasks.map fun t =>
        if t.id = tk.id then
          { tk with title := st2.newTitle, description := st2.newDescription }
        else t := rfl
  refine ⟨?_, ?_, ?_, ?_, ?_, ?_, ?_, ?_, ?_⟩
  · rw [hr1]; simp
  · rw [hr1]
    induction st.tasks with
    | nil => rfl
    | cons t ts ih =>
      simp only [List.map_cons, ih, List.cons.injEq, and_true]
      by_cases h : t.id = et.id <;> simp [h]
  · rw [hr1]
    induction st.tasks with
    | nil => rfl
    | cons t ts ih =>
      simp only [List.map_cons, ih, List.cons.injEq, and_true]
      by_cases h : t.id = et.id <;> simp [h]
  · intro i hi
    rw [hr1, List.getElem?_map]
    cases hx : st.tasks[i]? with
    | none => rfl
    | some u =>
      rw [hx] at hi
      have hne : u.id ≠ et.id := by
        intro hc
        exact hi (by simp [hc])
      simp [hne]
  · intro i hi
    rw [hr1, List.getElem?_map]
    cases hx : st.tasks[i]? with
    | none => rw [hx] at hi; simp at hi
    | some u =>
      rw [hx] at hi
      have heq : u.id = et.id := by simpa using hi
      simp [heq]
  · rw [hr2]; simp
  · rw [hr2]
    induction st2.tasks with
    | nil => rfl
    | cons t ts ih =>
      simp only [List.map_cons, ih, List.cons.injEq, and_true]
      by_cases h : t.id = tk.id <;> simp [h]
  · intro i hi
    rw [hr2, List.getElem?_map]
    cases hx : st2.tasks[i]? with
    | none => rfl
    | some u =>
      rw [hx] at hi
      have hne : u.id ≠ tk.id := by
        intro hc
        exact hi (by simp [hc])
      simp [hne]
  · intro i hi
    rw [hr2, List.getElem?_map]
    cases hx : st2.tasks[i]? with
    | none => rw [hx] at hi; simp at hi
    | some u =>
      rw [hx] at hi
      have heq : u.id = tk.id := by simpa using hi
      simp [heq]

/-- Witness for the amended C4 at a concrete input: committing an edit of
the task with id "1" updates title and description in place and keeps the
current `completed` value of the list in version 1. -/
theorem c4_commitEdit_frame_witness :
    (V1.editExistingTask true ⟨"b", some "y"⟩
      ⟨[⟨"1", "a", "x", true⟩], some ⟨"1", "a", "x", false⟩, TaskFilter.all,
        none, none⟩).tasks[0]?
      = ([(⟨"1", "a", "x", true⟩ : Task)][0]?).map fun u =>
          { u with title := "b", description := jsOrEmpty (some "y") } :=
  (c4_commitEdit_frame ⟨"b", some "y"⟩
    ⟨[⟨"1", "a", "x", true⟩], some ⟨"1", "a", "x", false⟩, TaskFilter.all,
      none, none⟩ ⟨"1", "a", "x", false⟩ rfl
    ⟨"1", "a", "x", false⟩
    ⟨[⟨"1", "a", "x", true⟩], "b", "y", some ⟨"1", "a", "x", false⟩,
      TaskFilter.all, none⟩).2.2.2.2.1 0 (by decide)

/-- Claim C5: FAILS on the code at a concrete input. `deleteTask` removes
the task from the list but does not touch `editTask`: deleting the task
currently under edit leaves the edit target pointing at the removed task. -/
theorem c5_counterexample :
    (V1.deleteTask true ⟨"1", "a", "", false⟩
      ⟨[⟨"1", "a", "", false⟩], some ⟨"1", "a", "", false⟩, TaskFilter.all,
        none, none⟩).tasks = [] ∧
    (V1.deleteTask true ⟨"1", "a", "", false⟩
      ⟨[⟨"1", "a", "", false⟩], some ⟨"1", "a", "", false⟩, TaskFilter.all,
        none, none⟩).editTask = some ⟨"1", "a", "", false⟩ := by
  refine ⟨rfl, rfl⟩

/-- Claim C5 (amended): `deleteTask` itself never clears the edit target in
either version — it leaves `editTask` exactly as it was. In version 1 the
delete flow through the UI nevertheless ends with `editTarget = none`,
because the options menu can only be reached through `openOptions`, which
clears `editTask` before the delete action can fire. -/
theorem c5_amended_delete_editTarget (ok : Bool) (t : Task) (st : V1.State)
    (tid : String) (st2 : V2.State) :
    (V1.deleteTask ok t st).editTask = st.editTask ∧
    (V2.deleteTask tid st2).editTask = st2.editTask ∧
    (V1.handleOptionsAction ok "delete" (V1.openOptions t st)).editTask = none ∧
    (V1.handleOptionsAction true "delete" (V1.openOptions t st)).tasks
      = st.tasks.filter fun u => u.id ≠ t.id := by
  refine ⟨?_, rfl, ?_, rfl⟩
  · cases ok <;> rfl
  · cases ok <;> rfl

end TaskApp
